import Mathlib

/-
Shallow embedding of the test-task-grabber repository (src/models.py,
src/grabber.py, src/client.py, src/app.py) and proofs about the claims
of its specification.  Every definition is translated from the Python
source; line numbers in the doc comments point into the source files.
-/

namespace GS

/-! ## Python-level helpers -/

/-- Lookup in a Python dict modelled as an association list (first match wins;
`dictSet` below never creates duplicate keys, matching dict assignment). -/
def dictGet (k : String) : List (String × String) → Option String
  | [] => none
  | (k', v) :: rest => if k = k' then some v else dictGet k rest

/-- Assignment `d[k] = v` on a Python dict modelled as an association list:
overwrites the existing binding of `k` or appends a new one. -/
def dictSet (k v : String) : List (String × String) → List (String × String)
  | [] => [(k, v)]
  | (k', v') :: rest => if k = k' then (k, v) :: rest else (k', v') :: dictSet k v rest

instance {ε α : Type} [DecidableEq ε] [DecidableEq α] : DecidableEq (Except ε α) :=
  fun x y =>
    match x, y with
    | .error a, .error b =>
      if h : a = b then .isTrue (by rw [h]) else .isFalse (by simp [h])
    | .ok a, .ok b =>
      if h : a = b then .isTrue (by rw [h]) else .isFalse (by simp [h])
    | .error _, .ok _ => .isFalse (by simp)
    | .ok _, .error _ => .isFalse (by simp)

/-- Split a character list at every character satisfying `p`, keeping empty
groups, as Python `str.split(sep)` does. -/
def splitWhen (p : Char → Bool) : List Char → List (List Char)
  | [] => [[]]
  | c :: rest =>
    let r := splitWhen p rest
    if p c then [] :: r
    else (c :: r.headD []) :: r.tail

/-- Python `str.split(sep)` for a one-character separator (the only shape the
source uses: ",", "/", "."). -/
def pySplitChar (sep : Char) (s : String) : List String :=
  (splitWhen (fun c => c = sep) s.data).map (fun l => String.mk l)

/-- Python `str.split()` with no argument: split on whitespace and drop the
empty fields, which is the same as splitting on whitespace runs. -/
def pySplitWS (s : String) : List String :=
  ((splitWhen Char.isWhitespace s.data).map (fun l => String.mk l)).filter
    (fun t => t ≠ "")

/-- Python `str.strip()`. -/
def pyStrip (s : String) : String := s.trim

def digitsToNatAux : List Char → Nat → Option Nat
  | [], acc => some acc
  | c :: rest, acc =>
    if c.isDigit then digitsToNatAux rest (acc * 10 + (c.toNat - 48))
    else none

/-- Models Python `float(s)` restricted to the nonnegative integer literals
that reach it in this code base (the digits before the comma of a price).
Any other string is treated as raising `ValueError` (`none`). -/
def pyFloatNat (s : String) : Option Nat :=
  match s.data with
  | [] => none
  | l => digitsToNatAux l 0

/-! ## Data model (src/models.py)

`Product.__init__` (models.py lines 14-20) binds the six keyword parameters
below; `to_dict` (lines 22-27) exposes only name, description and ean. -/

structure ProductR where
  name : String
  price : String
  description : String
  category_set : List String
  image_urls : List String
  ean : String
deriving DecidableEq

/-- Parameter names of `Product.__init__` (models.py line 14). -/
def productInitParams : List String :=
  ["name", "price", "description", "category_set", "image_urls", "ean"]

/-- Keyword names used at the call site `Product(...)` in
`GrowShopGrabber._parse_product` (grabber.py lines 166-173). -/
def parseProductKwargNames : List String :=
  ["name", "price", "description", "category", "image_urls", "ean"]

/-- A Python keyword call binds successfully iff every supplied keyword is a
parameter and every (non-defaulted) parameter is supplied; otherwise the call
raises `TypeError`. -/
def pyKwargsMatch (kwargs params : List String) : Bool :=
  kwargs.all (fun k => params.contains k) && params.all (fun p => kwargs.contains p)

/-! ## Reference resolver caches (src/client.py)

`ShopwareClient.__init__` (client.py lines 37-42) creates four empty dicts:
currencies, categories, taxes, media_folders. -/

structure CState where
  currencies : List (String × String)
  categories : List (String × String)
  taxes : List (String × String)
  mediaFolders : List (String × String)
deriving DecidableEq

/-- The freshly started client: all four cache dicts empty. -/
def cs0 : CState := ⟨[], [], [], []⟩

/-- The remote Shopware side, as observed through the search endpoints: each
field returns the id of the first element of the `data` list of the filtered
search, or `none` when that list is empty.  `taxSearch` is the search for
name "Standard rate", `mediaFolderSearch` the search for name
"Product Media". -/
structure Env where
  currencySearch : String → Option String
  categorySearch : String → Option String
  taxSearch : Option String
  mediaFolderSearch : Option String

/-- `ShopwareClient._get_currency_id` (client.py lines 267-293): serve from
`self.currencies` when cached, otherwise search remotely (the `Nat` counts
remote queries); an empty search result is returned as `None` and is not
cached, a hit is cached under the symbol. -/
def getCurrencyId (env : Env) (s : CState) (symbol : String) :
    Option String × CState × Nat :=
  match dictGet symbol s.currencies with
  | some cid => (some cid, s, 0)
  | none =>
    match env.currencySearch symbol with
    | none => (none, s, 1)
    | some cid => (some cid, { s with currencies := dictSet symbol cid s.currencies }, 1)

/-- `ShopwareClient._get_category_id` (client.py lines 340-365): same shape as
the currency lookup, over `self.categories`. -/
def getCategoryId (env : Env) (s : CState) (name : String) :
    Option String × CState × Nat :=
  match dictGet name s.categories with
  | some cid => (some cid, s, 0)
  | none =>
    match env.categorySearch name with
    | none => (none, s, 1)
    | some cid => (some cid, { s with categories := dictSet name cid s.categories }, 1)

/-- `ShopwareClient._get_product_media_folder_id` (client.py lines 316-338):
cached under the fixed key "product" in `self.media_folders`. -/
def getProductMediaFolderId (env : Env) (s : CState) :
    Option String × CState × Nat :=
  match dictGet "product" s.mediaFolders with
  | some mid => (some mid, s, 0)
  | none =>
    match env.mediaFolderSearch with
    | none => (none, s, 1)
    | some mid => (some mid, { s with mediaFolders := dictSet "product" mid s.mediaFolders }, 1)

/-- `ShopwareClient._get_standard_tax_id` (client.py lines 295-314): reads the
cache key "standard" from `self.taxes`, but on a remote hit stores the fetched
id into `self.currencies` (line 312: `self.currencies["standard"] = tax_id`),
not into `self.taxes`.  An empty remote `data` list raises `IndexError`
(line 311 indexes `[0]` without a length check). -/
def getStandardTaxId (env : Env) (s : CState) :
    Except String String × CState × Nat :=
  match dictGet "standard" s.taxes with
  | some tid => (.ok tid, s, 0)
  | none =>
    match env.taxSearch with
    | none => (.error "IndexError: list index out of range", s, 1)
    | some tid => (.ok tid, { s with currencies := dictSet "standard" tid s.currencies }, 1)

/-! ## Price parsing (client.py lines 175-176) -/

/-- The price section of `ShopwareClient._product_data`:
`num, symbol = product.price.split()` followed by
`num = float(".".join(num.split(",")[:1]))`.  A split that does not yield
exactly two fields fails the tuple unpacking (`ValueError`), and `[:1]` keeps
only the segment before the first comma, so the fractional part is discarded
(truncation). -/
def parsePrice (price : String) : Except String (Nat × String) :=
  match pySplitWS price with
  | [num, symbol] =>
    match pyFloatNat ((pySplitChar ',' num).headD "") with
    | some n => .ok (n, symbol)
    | none => .error "ValueError: could not convert string to float"
  | _ => .error "ValueError: not enough values to unpack"

/-! ## Category hierarchy builder (client.py lines 190-220) -/

/-- The nested category payload built by `_product_data`: either a reference
to an existing remote category (`{"id": ...}`, possibly holding `None` when
the default parent "Home" does not resolve), or a to-be-created category
(`{"name": ...}`) without a `"parent"` entry yet (`nameOnly`), or one with a
`"parent"` entry (`nameParent`). -/
inductive CatPayload where
  | byId (id : Option String)
  | nameOnly (name : String)
  | nameParent (name : String) (parent : CatPayload)
deriving DecidableEq

/-- The `while True` walk of client.py lines 198-202: descend through
`"parent"` keys to the deepest dict and attach the new child there.  In every
run of the source the deepest dict is a name node without a parent (an id
node always terminates the loop), so the `byId` case is never reached. -/
def attachDeep : CatPayload → CatPayload → CatPayload
  | .nameOnly n, child => .nameParent n child
  | .nameParent n p, child => .nameParent n (attachDeep p child)
  | .byId i, _ => .byId i

/-- The `for i, parent in enumerate(product.category_set[:-1][::-1])` loop of
client.py lines 196-214, over the enumerated ancestor list (nearest parent
first).  `total` is `len(product.category_set)`.  A resolved ancestor is
attached by id and the loop breaks; a missing one is attached by name, and at
the last index (`i == total - 2`) the default parent "Home" is attached below
it by (possibly absent) id. -/
def categoryWalk (env : Env) (total : Nat) :
    List (Nat × String) → CatPayload → CState → CatPayload × CState × Nat
  | [], cat, s => (cat, s, 0)
  | (i, parentName) :: rest, cat, s =>
    let r := getCategoryId env s parentName
    match r.1 with
    | some pid => (attachDeep cat (.byId (some pid)), r.2.1, r.2.2)
    | none =>
      let cat1 := attachDeep cat (.nameOnly parentName)
      if i = total - 2 then
        let rh := getCategoryId env r.2.1 "Home"
        let rec1 := categoryWalk env total rest (attachDeep cat1 (.byId rh.1)) rh.2.1
        (rec1.1, rec1.2.1, r.2.2 + rh.2.2 + rec1.2.2)
      else
        let rec1 := categoryWalk env total rest cat1 r.2.1
        (rec1.1, rec1.2.1, r.2.2 + rec1.2.2)

/-- The category section of `_product_data` (client.py lines 190-220):
resolve the leaf `category_set[-1]` first (an empty `category_set` raises
`IndexError`); on a hit the payload is the bare id reference, otherwise the
payload starts as `{"name": leaf}` and the ancestor walk above runs. -/
def buildCategory (env : Env) (categorySet : List String) (s : CState) :
    Except String CatPayload × CState × Nat :=
  match categorySet.getLast? with
  | none => (.error "IndexError: list index out of range", s, 0)
  | some leaf =>
    let r := getCategoryId env s leaf
    match r.1 with
    | some cid => (.ok (.byId (some cid)), r.2.1, r.2.2)
    | none =>
      let w := categoryWalk env categorySet.length
        (categorySet.dropLast.reverse.enum) (.nameOnly leaf) r.2.1
      (.ok w.1, w.2.1, r.2.2 + w.2.2)

/-- Names of the categories a payload would create (its name nodes, top to
bottom); id nodes reference existing remote categories and create nothing. -/
def newNames : CatPayload → List String
  | .byId _ => []
  | .nameOnly n => [n]
  | .nameParent n p => n :: newNames p

/-! ## Media upload loop (client.py lines 222-259) -/

/-- `image_url.split("/")[-1].split(".")` unpacked into `file_name, extension`
(client.py line 239): the last path segment must contain exactly one dot,
otherwise the unpacking raises `ValueError` inside `_product_data`. -/
def fileNameExt (url : String) : Except String (String × String) :=
  match pySplitChar '.' ((pySplitChar '/' url).getLastD "") with
  | [fileName, extension] => .ok (fileName, extension)
  | _ => .error "ValueError: file name split"

/-- True when `fileNameExt` succeeds on the url. -/
def fileNameExtOk (url : String) : Bool :=
  match fileNameExt url with
  | .ok _ => true
  | .error _ => false

/-- Per-product environment data that the source draws from I/O while sending
one product: the HTTP status of each media create and media upload call
(index = position in `image_urls`), the generated `uuid4().hex` media ids,
the generated `uuid4()` product number, the id the remote assigns on a
successful product POST, and the statuses of the product POST and PATCH. -/
structure ItemCtx where
  mediaCreateOk : Nat → Bool
  mediaUploadOk : Nat → Bool
  mediaId : Nat → String
  productNumber : String
  createdId : String
  postOk : Bool
  patchOk : Bool

/-- The `for i, image_url in enumerate(product.image_urls)` loop of client.py
lines 223-257, over the enumerated url list.  Each iteration looks up the
media folder id (inside the create payload), posts the media create (a
non-204 status skips the image), splits the file name (a malformed url raises
out of the whole product), posts the upload (non-204 skips the image), and
then either sets the cover (index 0, not appended to the gallery) or appends
the media id to the gallery. -/
def mediaLoop (env : Env) (ctx : ItemCtx) :
    List (Nat × String) → Option String → List String → CState →
    Except String (Option String × List String) × CState
  | [], cover, gallery, s => (.ok (cover, gallery), s)
  | (i, url) :: rest, cover, gallery, s =>
    let rf := getProductMediaFolderId env s
    if ctx.mediaCreateOk i = false then
      mediaLoop env ctx rest cover gallery rf.2.1
    else
      match fileNameExt url with
      | .error e => (.error e, rf.2.1)
      | .ok _ =>
        if ctx.mediaUploadOk i = false then
          mediaLoop env ctx rest cover gallery rf.2.1
        else if i = 0 then
          mediaLoop env ctx rest (some (ctx.mediaId 0)) gallery rf.2.1
        else
          mediaLoop env ctx rest cover (gallery ++ [ctx.mediaId i]) rf.2.1

/-! ## Product payload (client.py lines 163-265) -/

/-- The linked price entry of client.py lines 181-188; gross and net are the
same truncated amount. -/
structure PricePayload where
  currencyId : String
  gross : Nat
  net : Nat
  linked : Bool
deriving DecidableEq

/-- The dict returned by `_product_data`: the `to_dict` fields plus the
price list, category payload, cover and media lists, generated product
number, tax id and zero stock. -/
structure OutPayload where
  name : String
  description : String
  ean : String
  price : PricePayload
  categories : CatPayload
  cover : Option String
  media : List String
  productNumber : String
  taxId : String
  stock : Nat
deriving DecidableEq

/-- `ShopwareClient._product_data` (client.py lines 163-265).  Returns the
payload, `none` when the currency does not resolve (line 178-179), or an
error when any of the raising steps raises (price unpacking, float
conversion, empty `category_set`, file name split, tax `IndexError`); the
cache state mutated up to the point of the raise is kept, as the Python
`self` dicts are. -/
def productData (env : Env) (ctx : ItemCtx) (s : CState) (p : ProductR) :
    Except String (Option OutPayload) × CState :=
  match parsePrice p.price with
  | .error e => (.error e, s)
  | .ok (n, symbol) =>
    let rc := getCurrencyId env s symbol
    match rc.1 with
    | none => (.ok none, rc.2.1)
    | some cid =>
      match buildCategory env p.category_set rc.2.1 with
      | (.error e, s2, _) => (.error e, s2)
      | (.ok cat, s2, _) =>
        match mediaLoop env ctx p.image_urls.enum none [] s2 with
        | (.error e, s3) => (.error e, s3)
        | (.ok (cover, gallery), s3) =>
          match getStandardTaxId env s3 with
          | (.error e, s4, _) => (.error e, s4)
          | (.ok taxId, s4, _) =>
            (.ok (some
              { name := p.name
                description := p.description
                ean := p.ean
                price := { currencyId := cid, gross := n, net := n, linked := true }
                categories := cat
                cover := cover
                media := gallery
                productNumber := ctx.productNumber
                taxId := taxId
                stock := 0 }), s4)

/-! ## Sending products (client.py lines 113-161, 367-389) -/

/-- The wire payload of the product POST/PATCH: the `_product_data` dict,
whose `productNumber` key is deleted before a PATCH (line 146) and to which
a `visibilities` entry is added before a POST (lines 137-139). -/
structure WirePayload where
  base : OutPayload
  productNumber : Option String
  visibilities : Bool
deriving DecidableEq

/-- What `send_data` did for one product of the list: caught an exception and
skipped it (lines 157-159), skipped it because `_product_data` returned
`None` (lines 130-131), created it with POST (lines 134-140), or updated it
with PATCH by remote id (lines 141-149).  The `Bool` records whether the
response status was 204 (a non-204 status is only logged, lines 151-155). -/
inductive Outcome where
  | exc (msg : String)
  | currencyMiss
  | posted (w : WirePayload) (ok : Bool)
  | patched (id : String) (w : WirePayload) (ok : Bool)
deriving DecidableEq

def Outcome.isExc : Outcome → Bool
  | .exc _ => true
  | _ => false

def Outcome.isCreate : Outcome → Bool
  | .posted _ _ => true
  | _ => false

/-- A submission that reached the remote and, in the POST case, succeeded:
these are the runs after which the product name is known to exist remotely. -/
def Outcome.submitOk : Outcome → Bool
  | .posted _ ok => ok
  | .patched _ _ _ => true
  | _ => false

/-- `ShopwareClient._get_product_id` (client.py lines 367-389) has no cache:
every call searches the remote product set by exact name and takes the first
match.  The remote set is an association list name ↦ id that grows when a
POST succeeds. -/
def lookupRemoteProduct (remote : List (String × String)) (name : String) :
    Option String :=
  dictGet name remote

/-- The product loop of `send_data` (client.py lines 127-159): for each
product build `_product_data` (an exception is logged and the product
skipped; `None` means the currency did not resolve and the product is
skipped), then decide create-vs-update by `_get_product_id`; a POST stamps
the sales-channel visibilities and, when it returns 204, adds the product to
the remote set; a PATCH deletes `productNumber` and addresses the remote id.
`k` is the position in the list, used to index the per-product I/O context.
Returns the outcomes in order, the final cache state and the final remote
product set. -/
def sendData (env : Env) (ctx : Nat → ItemCtx) :
    List ProductR → Nat → CState → List (String × String) →
    List Outcome × CState × List (String × String)
  | [], _, s, remote => ([], s, remote)
  | p :: rest, k, s, remote =>
    match productData env (ctx k) s p with
    | (.error e, s1) =>
      let r := sendData env ctx rest (k + 1) s1 remote
      (.exc e :: r.1, r.2.1, r.2.2)
    | (.ok none, s1) =>
      let r := sendData env ctx rest (k + 1) s1 remote
      (.currencyMiss :: r.1, r.2.1, r.2.2)
    | (.ok (some pd), s1) =>
      match lookupRemoteProduct remote pd.name with
      | none =>
        let w : WirePayload :=
          { base := pd, productNumber := some pd.productNumber, visibilities := true }
        let ok := (ctx k).postOk
        let remote1 := if ok then dictSet pd.name (ctx k).createdId remote else remote
        let r := sendData env ctx rest (k + 1) s1 remote1
        (.posted w ok :: r.1, r.2.1, r.2.2)
      | some pid =>
        let w : WirePayload :=
          { base := pd, productNumber := none, visibilities := false }
        let r := sendData env ctx rest (k + 1) s1 remote
        (.patched pid w (ctx k).patchOk :: r.1, r.2.1, r.2.2)

structure SendResult where
  outcomes : List Outcome
  finalState : CState
  remote : List (String × String)
  refreshCancelled : Bool
deriving DecidableEq

/-- `ShopwareClient.send_data` (client.py lines 113-161): starts the refresh
task, runs the product loop, and unconditionally cancels the refresh task
once the loop over all products has completed (line 161). -/
def sendDataRun (env : Env) (ctx : Nat → ItemCtx) (products : List ProductR)
    (s : CState) (remote : List (String × String)) : SendResult :=
  let r := sendData env ctx products 0 s remote
  ⟨r.1, r.2.1, r.2.2, true⟩

/-! ## Token refresh loop (client.py lines 87-111) -/

/-- One response of the token endpoint to a refresh-token grant. -/
structure RefreshResp where
  status : Nat
  tokenType : String
  accessToken : String
  refreshToken : String
deriving DecidableEq

/-- The mutable auth state owned by the client: the `Authorization` header
value and the current refresh token. -/
structure AuthSt where
  authHeader : String
  refreshToken : String
deriving DecidableEq

/-- One iteration of the `while True` body of `ShopwareClient.refresh`
(client.py lines 93-111): a non-200 status logs and raises
`Exception("shopware refresh error")`; a 200 installs the new header and
refresh token. -/
def refreshStep (_st : AuthSt) (r : RefreshResp) : Except String AuthSt :=
  if r.status = 200 then
    .ok { authHeader := r.tokenType ++ " " ++ r.accessToken,
          refreshToken := r.refreshToken }
  else
    .error "shopware refresh error"

/-- The refresh loop over the successive responses the token endpoint gives
it: the first non-200 response raises and ends the loop, so the remaining
responses are never requested (no retry). -/
def refreshLoop : AuthSt → List RefreshResp → Except String AuthSt
  | st, [] => .ok st
  | st, r :: rest =>
    match refreshStep st r with
    | .error e => .error e
    | .ok st1 => refreshLoop st1 rest

/-! ## Top-level run (app.py lines 53-69) -/

structure AppResult where
  fatal : Option String
  outcomes : List Outcome
  sessionClosed : Bool
  refreshTask : Except String AuthSt
deriving DecidableEq

/-- `App.run` together with the background refresh task of `send_data`.
`send_data` creates the refresh task with `asyncio.create_task`, never awaits
it, and cancels it after the product loop (client.py lines 125, 161); under
asyncio semantics an exception raised inside a task that is never awaited is
retained in the task object and does not propagate into `send_data` or
`App.run`, so `fatal` reflects only failures of the awaited path (here: the
initial auth).  The fate of the refresh task is recorded separately in
`refreshTask`.  The `finally` block closes the session in every case. -/
def appRun (env : Env) (ctx : Nat → ItemCtx) (products : List ProductR)
    (authOk : Bool) (auth0 : AuthSt) (resps : List RefreshResp)
    (s : CState) (remote : List (String × String)) : AppResult :=
  if authOk = false then
    { fatal := some "shopware auth error", outcomes := [],
      sessionClosed := true, refreshTask := .ok auth0 }
  else
    let r := sendDataRun env ctx products s remote
    { fatal := none, outcomes := r.outcomes,
      sessionClosed := true, refreshTask := refreshLoop auth0 resps }

/-! ## Product page parsing (src/grabber.py lines 144-173) -/

/-- The data a product detail page exposes through the fixed selectors of
`_parse_product`: each field is `none` when its selector chain finds nothing
(in which case the Python code raises `AttributeError` on `None`).  The
gallery is the list of `src` attributes of the `img` tags under
`div#gallery`; an `img` without `src` contributes `none`. -/
structure RawProductPage where
  productTitle : Option String
  priceText : Option String
  descText : Option String
  skuText : Option String
  gallery : Option (List (Option String))
deriving DecidableEq

/-- `GrowShopGrabber._parse_product` (grabber.py lines 144-173): extract the
five fields (a missing selector raises), then call
`Product(name=..., price=..., description=..., category=..., image_urls=...,
ean=...)`.  `Product.__init__` has no parameter named `category` (its fourth
parameter is `category_set`, models.py line 14), so the keyword call raises
`TypeError` whenever it is reached; the guarded branch shows the record the
intended binding would produce. -/
def parseProductPage (page : RawProductPage) (category : String) :
    Except String ProductR :=
  match page.productTitle, page.priceText, page.descText, page.skuText,
      page.gallery with
  | some n, some pr, some d, some sk, some g =>
    if pyKwargsMatch parseProductKwargNames productInitParams then
      .ok { name := pyStrip n, price := pyStrip pr, description := pyStrip d,
            category_set := [pyStrip category], image_urls := g.filterMap id,
            ean := pyStrip sk }
    else
      .error "TypeError: unexpected keyword argument category"
  | _, _, _, _, _ => .error "AttributeError: NoneType has no attribute"

/-! ## Catalog crawling (src/grabber.py lines 29-142) -/

/-- A fetched catalog page as the crawler reads it: whether the
thumbnail-grid block of a "category of catalogs" page is present (the
selector chain of grabber.py line 53 succeeds), the `h1.title` text, the
product pages reachable from the `a.img-w` links, and the target of the
`li.next` pagination control if present. -/
structure Page where
  isCatalogPage : Bool
  title : String
  productPages : List RawProductPage
  next : Option String
deriving DecidableEq

/-- The inner product loop of `grab` (grabber.py lines 61-73): fetch and
parse each product page of the listing; a parse failure is logged and that
product skipped, the loop continues. -/
def pageProducts (page : Page) : List ProductR :=
  page.productPages.foldl
    (fun acc pp =>
      match parseProductPage pp page.title with
      | .ok pr => acc ++ [pr]
      | .error _ => acc) []

/-- The `while True` pagination loop of `grab` for one catalog seed
(grabber.py lines 46-82), with fuel: `none` models the loop not terminating
within `fuel` fetches.  Each iteration fetches the current link; a "category
of catalogs" page stops the seed immediately (no products, no further
fetch); otherwise the products of the page are collected and the loop
follows the `li.next` link, stopping when there is none.  The first
component of the result is the list of fetched pages in order. -/
def crawlSeed (fetch : String → Page) : Nat → String →
    Option (List String × List ProductR)
  | 0, _ => none
  | fuel + 1, link =>
    let page := fetch link
    if page.isCatalogPage then some ([link], [])
    else
      match page.next with
      | none => some ([link], pageProducts page)
      | some nxt =>
        match crawlSeed fetch fuel nxt with
        | none => none
        | some (v, ps) => some (link :: v, pageProducts page ++ ps)

/-- The outer seed loop of `grab` (grabber.py lines 44-86): crawl each seed
and concatenate the products; a seed whose pagination does not terminate
makes the whole crawl diverge (`none`). -/
def crawlSeeds (fetch : String → Page) (fuel : Nat) :
    List String → Option (List ProductR)
  | [] => some []
  | l :: rest =>
    match crawlSeed fetch fuel l with
    | none => none
    | some (_, ps) =>
      match crawlSeeds fetch fuel rest with
      | none => none
      | some ps1 => some (ps ++ ps1)

/-! ## Navigation menu discovery (grabber.py lines 90-119) -/

/-- An item of the `mm-dropdown` navigation menu: a leaf `li` (no nested
`ul`) optionally carrying an `a href`, or a branch `li` with a nested item
list.  A leaf `a` tag without an `href` attribute is not modelled (it would
append `None` to the link list); no claim depends on it. -/
inductive MenuItem where
  | leaf (href : Option String)
  | branch (sub : List MenuItem)

/-- The recursive `find_path` of `_parse_catalog_links` (grabber.py lines
100-117): depth-first over the nested lists, appending the `href` of every
leaf item that has a link. -/
def findPath : List MenuItem → List String
  | [] => []
  | .leaf none :: rest => findPath rest
  | .leaf (some h) :: rest => h :: findPath rest
  | .branch sub :: rest => findPath sub ++ findPath rest

/-- Models `list(set(links))` (grabber.py line 119): duplicates removed,
membership preserved; the ordering of a Python set is unspecified, the model
fixes one arbitrarily. -/
def pySetList (l : List String) : List String := l.dedup

/-! ## Grabber object and the shared default seed list (grabber.py 18-44)

The default value of the `catalog_links` parameter is evaluated once, when
`def __init__` is executed at class creation, producing a single list object
shared by every construction that omits the argument.  A small heap of list
cells makes that aliasing explicit. -/

abbrev Ref := Nat

structure GHeap where
  cells : List (List String)
deriving DecidableEq

def GHeap.read (h : GHeap) (r : Ref) : List String := h.cells.getD r []

def GHeap.write (h : GHeap) (r : Ref) (v : List String) : GHeap :=
  ⟨h.cells.set r v⟩

def GHeap.alloc (h : GHeap) (v : List String) : GHeap × Ref :=
  (⟨h.cells ++ [v]⟩, h.cells.length)

/-- The cell holding the default `[]` of the `catalog_links` parameter,
allocated when the module is loaded. -/
def defaultLinksRef : Ref := 0

/-- The heap right after module load: only the default-argument cell. -/
def heap0 : GHeap := ⟨[[]]⟩

structure GrabberObj where
  url : String
  linksRef : Ref
deriving DecidableEq

/-- `GrowShopGrabber.__init__` (grabber.py lines 18-27): `none` models a call
that omits `catalog_links` and therefore receives the shared default list
object; `some l` models an explicitly supplied list (a fresh object). -/
def mkGrowShopGrabber (h : GHeap) (url : String) (links : Option (List String)) :
    GrabberObj × GHeap :=
  match links with
  | none => ({ url := url, linksRef := defaultLinksRef }, h)
  | some l =>
    let a := h.alloc l
    ({ url := url, linksRef := a.2 }, a.1)

/-- `_parse_catalog_links` (grabber.py lines 90-119): append every discovered
href to the list object currently bound to `self.catalog_links` (mutating
it in place), then rebind the attribute to a fresh list built by
`list(set(...))`. -/
def parseCatalogLinks (h : GHeap) (g : GrabberObj) (menu : List MenuItem) :
    GrabberObj × GHeap :=
  let appended := h.read g.linksRef ++ findPath menu
  let h1 := h.write g.linksRef appended
  let a := h1.alloc (pySetList appended)
  ({ g with linksRef := a.2 }, a.1)

/-- The pre-crawl phase of `grab` (grabber.py lines 36-44): when the current
`catalog_links` list is empty, fetch the site root and run
`_parse_catalog_links`; the returned list is what the seed loop iterates
over. -/
def grabSeeds (h : GHeap) (g : GrabberObj) (menu : List MenuItem) :
    List String × GrabberObj × GHeap :=
  if (h.read g.linksRef).length = 0 then
    let r := parseCatalogLinks h g menu
    (r.2.read r.1.linksRef, r.1, r.2)
  else
    (h.read g.linksRef, g, h)

/-- `GrowShopGrabber.grab` (grabber.py lines 29-88): discover or take the
seed list, then crawl every seed. -/
def grab (h : GHeap) (g : GrabberObj) (menu : List MenuItem)
    (fetch : String → Page) (fuel : Nat) :
    Option (List ProductR) × GrabberObj × GHeap :=
  let r := grabSeeds h g menu
  (crawlSeeds fetch fuel r.1, r.2.1, r.2.2)

/-! ## Derived notions used by the statements -/

/-- A pure name chain as the walk builds it: the leaf on top, each further
name nested as the parent of the previous one, the deepest node still
without a parent entry. -/
def nameChain : String → List String → CatPayload
  | n, [] => .nameOnly n
  | n, m :: ms => .nameParent n (nameChain m ms)

/-- Nest the given names (top to bottom) above a terminal payload. -/
def nestNames : List String → CatPayload → CatPayload
  | [], t => t
  | n :: ms, t => .nameParent n (nestNames ms t)

/-- The category cache only ever holds answers the remote search gave, so a
cached id agrees with the remote. Holds for the fresh client and is
preserved by every operation of the embedding. -/
def CatConsistent (env : Env) (s : CState) : Prop :=
  ∀ n v, dictGet n s.categories = some v → env.categorySearch n = some v

/-- A finite pagination chain for one catalog seed: the successive page
links, none of them a "category of catalogs" page, the next control of each
page pointing to the following link and the last page having none. -/
structure ChainSpec (fetch : String → Page) (ls : List String) : Prop where
  ne : ls ≠ []
  notCat : ∀ i (h : i < ls.length), (fetch (ls.get ⟨i, h⟩)).isCatalogPage = false
  nextAt : ∀ i (h : i < ls.length),
    (fetch (ls.get ⟨i, h⟩)).next =
      if h2 : i + 1 < ls.length then some (ls.get ⟨i + 1, h2⟩) else none

/-- Stated from the words of claim C2, for comparison with the source
behaviour: the index of the first image whose create and upload steps both
succeed. -/
def specFirstSuccessfulUpload (createOk uploadOk : Nat → Bool) (n : Nat) :
    Option Nat :=
  (List.range n).find? (fun i => createOk i && uploadOk i)

/-! ## Concrete fixtures used by the closed statements and witnesses -/

/-- A remote side where the currency "EUR", the category "Cat", the standard
tax and the product-media folder all resolve. -/
def envProd : Env :=
  ⟨fun s => if s = "EUR" then some "CUR" else none,
   fun n => if n = "Cat" then some "CATID" else none,
   some "TAX", some "MF"⟩

/-- Per-product I/O where every request succeeds. -/
def ctxOk : Nat → ItemCtx :=
  fun k => ⟨fun _ => true, fun _ => true, fun i => "m" ++ toString i,
    "PN" ++ toString k, "ID" ++ toString k, true, true⟩

/-- I/O where the upload of the image at index 1 fails (the B of the claimed
[A, B, C] example) and everything else succeeds. -/
def ctxFailB : ItemCtx :=
  ⟨fun _ => true, fun i => i != 1, fun i => "m" ++ toString i, "PN", "CID",
   true, true⟩

/-- I/O where the upload of the image at index 0 fails and everything else
succeeds. -/
def ctxFailA : ItemCtx :=
  ⟨fun _ => true, fun i => i != 0, fun i => "m" ++ toString i, "PN", "CID",
   true, true⟩

def urlsABC : List String :=
  ["http://h/a.jpg", "http://h/b.jpg", "http://h/c.jpg"]

/-- A product whose three gallery images are the [A, B, C] of the claim C2
example. -/
def prodABC : ProductR := ⟨"Lamp", "19,99 EUR", "d", ["Cat"], urlsABC, "E"⟩

/-- The payload the transform builds for `prodABC` under `ctxFailB`: cover
from image 0, gallery only image 2 (image 1 upload failed). -/
def pdABC : OutPayload :=
  { name := "Lamp", description := "d", ean := "E",
    price := { currencyId := "CUR", gross := 19, net := 19, linked := true },
    categories := .byId (some "CATID"), cover := some "m0", media := ["m2"],
    productNumber := "PN", taxId := "TAX", stock := 0 }

def prodGood1 : ProductR := ⟨"G1", "19,99 EUR", "d", ["Cat"], [], "E1"⟩
def prodGood2 : ProductR := ⟨"G2", "7,49 EUR", "d", ["Cat"], [], "E2"⟩
def prodGood4 : ProductR := ⟨"G4", "1,00 EUR", "d", ["Cat"], [], "E4"⟩
def prodGood5 : ProductR := ⟨"G5", "2,50 EUR", "d", ["Cat"], [], "E5"⟩

/-- A product whose price string has no space: the tuple unpacking in
`_product_data` raises for it. -/
def prodBadPrice : ProductR := ⟨"Bad", "broken", "d", ["Cat"], [], "E3"⟩

/-- A product whose currency symbol resolves to nothing remotely. -/
def prodNoCur : ProductR := ⟨"NoCur", "5,00 USD", "d", ["Cat"], [], "E"⟩

def authFix : AuthSt := ⟨"Bearer t0", "r0"⟩

/-- A non-success response of the token endpoint. -/
def respBad : RefreshResp := ⟨400, "Bearer", "x", "r1"⟩

def respOk : RefreshResp := ⟨200, "Bearer", "t1", "r1"⟩

/-- A remote side where only the category "Indoor" exists, for the claim C6
minimality example. -/
def envC6 : Env :=
  ⟨fun _ => none, fun n => if n = "Indoor" then some "IND" else none,
   some "TAX", some "MF"⟩

/-- A fully selector-matching product detail page. -/
def pageFull : RawProductPage :=
  ⟨some "  Lamp X ", some " 19,99 EUR ", some "de", some "SKU1",
   some [some "http://h/a.jpg"]⟩

/-- A two-page catalog seed whose listings both contain `pageFull`. -/
def fetchC1 : String → Page := fun l =>
  if l = "q1" then ⟨false, "LED", [pageFull], some "q2"⟩
  else if l = "q2" then ⟨false, "LED", [pageFull], none⟩
  else ⟨true, "", [], none⟩

/-- A three-page chain p1 → p2 → p3 for the claim C9 example; every other
link is a "category of catalogs" page. -/
def fetch3 : String → Page := fun l =>
  if l = "p1" then ⟨false, "cat", [], some "p2"⟩
  else if l = "p2" then ⟨false, "cat", [], some "p3"⟩
  else if l = "p3" then ⟨false, "cat", [], none⟩
  else ⟨true, "", [], none⟩

/-- A navigation menu whose leaves yield the hrefs ["a", "b", "a"]. -/
def menuFix : List MenuItem :=
  [.branch [.leaf (some "a"), .leaf (some "b")], .leaf (some "a"), .leaf none]

/-! ## Helper lemmas: dict model -/

theorem dictGet_dictSet (m k v : String) (l : List (String × String)) :
    dictGet m (dictSet k v l) = if m = k then some v else dictGet m l := by
  induction l with
  | nil => by_cases h : m = k <;> simp [dictGet, dictSet, h]
  | cons kv rest ih =>
    obtain ⟨k', v'⟩ := kv
    by_cases h1 : k = k' <;> by_cases h2 : m = k' <;> by_cases h3 : m = k <;>
      simp_all [dictGet, dictSet]

/-! ## Helper lemmas: the category resolver under cache consistency -/

theorem catConsistent_cs0 (env : Env) : CatConsistent env cs0 := by
  intro n v h
  simp [cs0, dictGet] at h

theorem getCategoryId_eq (env : Env) (s : CState) (n : String)
    (h : CatConsistent env s) :
    ∃ s1 q, getCategoryId env s n = (env.categorySearch n, s1, q) ∧
      CatConsistent env s1 ∧ q ≤ 1 := by
  cases hc : dictGet n s.categories with
  | some v =>
    refine ⟨s, 0, ?_, h, by omega⟩
    simp [getCategoryId, hc, h n v hc]
  | none =>
    cases he : env.categorySearch n with
    | none => exact ⟨s, 1, by simp [getCategoryId, hc, he], h, by omega⟩
    | some cid =>
      refine ⟨{ s with categories := dictSet n cid s.categories }, 1,
        by simp [getCategoryId, hc, he], ?_, by omega⟩
      intro m v hm
      simp only [dictGet_dictSet] at hm
      by_cases hmn : m = n
      · subst hmn
        simp at hm
        exact hm ▸ he
      · rw [if_neg hmn] at hm
        exact h m v hm

/-! ## Helper lemmas: attaching at the deepest node -/

theorem attachDeep_nameChain (t : CatPayload) :
    ∀ (ms : List String) (n : String),
      attachDeep (nameChain n ms) t = nestNames (n :: ms) t
  | [], _ => rfl
  | m :: ms, n => by
    simp [nameChain, attachDeep, nestNames, attachDeep_nameChain t ms m]

theorem nestNames_nameOnly :
    ∀ (ms : List String) (n p : String),
      nestNames (n :: ms) (.nameOnly p) = nameChain n (ms ++ [p])
  | [], _, _ => rfl
  | m :: ms, n, p => by
    simp [nestNames, nameChain]
    exact nestNames_nameOnly ms m p

theorem attachDeep_nameChain_grow (ms : List String) (n p : String) :
    attachDeep (nameChain n ms) (.nameOnly p) = nameChain n (ms ++ [p]) := by
  rw [attachDeep_nameChain, nestNames_nameOnly]

/-! ## Helper lemmas: the ancestor walk -/

theorem enumFrom_cons {α : Type} (k : Nat) (a : α) (l : List α) :
    List.enumFrom k (a :: l) = (k, a) :: List.enumFrom (k + 1) l := rfl

theorem categoryWalk_step_miss (env : Env) (total i : Nat) (p : String)
    (rest : List (Nat × String)) (cat : CatPayload) (s s1 : CState) (q : Nat)
    (heq : getCategoryId env s p = (none, s1, q)) (hne : ¬ (i = total - 2)) :
    categoryWalk env total ((i, p) :: rest) cat s =
      ((categoryWalk env total rest (attachDeep cat (.nameOnly p)) s1).1,
       (categoryWalk env total rest (attachDeep cat (.nameOnly p)) s1).2.1,
       q + (categoryWalk env total rest (attachDeep cat (.nameOnly p)) s1).2.2) := by
  simp [categoryWalk, heq, hne]

theorem categoryWalk_hit (env : Env) (total : Nat) (misses : List String) :
    ∀ (k : Nat) (hit : String) (tail : List String) (pid leaf : String)
      (ms0 : List String) (s : CState),
      CatConsistent env s →
      (∀ m ∈ misses, env.categorySearch m = none) →
      env.categorySearch hit = some pid →
      k + misses.length + 1 + tail.length = total - 1 →
      ∃ s1 q,
        categoryWalk env total (List.enumFrom k (misses ++ hit :: tail))
          (nameChain leaf ms0) s =
        (nestNames (leaf :: (ms0 ++ misses)) (.byId (some pid)), s1, q) := by
  induction misses with
  | nil =>
    intro k hit tail pid leaf ms0 s hcons _ hhit _
    obtain ⟨s1, q, heq, _, _⟩ := getCategoryId_eq env s hit hcons
    refine ⟨s1, q, ?_⟩
    simp only [List.nil_append, List.enumFrom]
    simp [categoryWalk, heq, hhit, attachDeep_nameChain]
  | cons m ms ih =>
    intro k hit tail pid leaf ms0 s hcons hmiss hhit hk
    obtain ⟨s1, q, heq, hcons1, _⟩ := getCategoryId_eq env s m hcons
    have hm : env.categorySearch m = none := hmiss m (by simp)
    have hkne : ¬ (k = total - 2) := by
      simp only [List.length_cons] at hk
      omega
    obtain ⟨s2, q2, hrec⟩ :=
      ih (k + 1) hit tail pid leaf (ms0 ++ [m]) s1 hcons1
        (fun x hx => hmiss x (by simp [hx]))
        hhit (by simp only [List.length_cons] at hk ⊢; omega)
    refine ⟨s2, q + q2, ?_⟩
    simp only [List.cons_append, List.enumFrom]
    simp [categoryWalk, heq, hm, hkne, attachDeep_nameChain_grow, hrec,
      List.append_assoc]

theorem categoryWalk_allMiss (env : Env) (total : Nat) (ms : List String) :
    ∀ (k : Nat) (leaf : String) (ms0 : List String) (s : CState),
      CatConsistent env s →
      (∀ m ∈ ms, env.categorySearch m = none) →
      ms ≠ [] →
      k + ms.length = total - 1 →
      ∃ s1 q,
        categoryWalk env total (List.enumFrom k ms) (nameChain leaf ms0) s =
        (nestNames (leaf :: (ms0 ++ ms)) (.byId (env.categorySearch "Home")),
         s1, q) := by
  induction ms with
  | nil => intro k leaf ms0 s _ _ hne _; exact absurd rfl hne
  | cons m ms ih =>
    intro k leaf ms0 s hcons hmiss _ hk
    obtain ⟨s1, q, heq, hcons1, _⟩ := getCategoryId_eq env s m hcons
    have hm : env.categorySearch m = none := hmiss m (by simp)
    cases ms with
    | nil =>
      have hkeq : k = total - 2 := by
        simp only [List.length_cons, List.length_nil] at hk
        omega
      obtain ⟨sh, qh, heqh, _, _⟩ := getCategoryId_eq env s1 "Home" hcons1
      refine ⟨sh, q + qh + 0, ?_⟩
      simp only [List.enumFrom]
      simp [categoryWalk, heq, hm, hkeq, heqh, attachDeep_nameChain_grow,
        attachDeep_nameChain, nestNames_nameOnly]
    | cons m2 ms2 =>
      have hkne : ¬ (k = total - 2) := by
        simp only [List.length_cons] at hk
        omega
      obtain ⟨s2, q2, hrec⟩ :=
        ih (k + 1) leaf (ms0 ++ [m]) s1 hcons1
          (fun x hx => hmiss x (by simp [hx])) (by simp)
          (by simp only [List.length_cons] at hk ⊢; omega)
      refine ⟨s2, q + q2, ?_⟩
      rw [hm] at heq
      rw [enumFrom_cons, categoryWalk_step_miss env total k m _ _ s s1 q heq hkne,
        attachDeep_nameChain_grow, hrec]
      simp

/-! ## Helper lemmas: the category payload builder -/

theorem buildCategory_leafFound (env : Env) (cs : List String) (s : CState)
    (leaf cid : String) (hcons : CatConsistent env s)
    (hlast : cs.getLast? = some leaf)
    (hid : env.categorySearch leaf = some cid) :
    ∃ s1 q, buildCategory env cs s = (.ok (.byId (some cid)), s1, q) ∧ q ≤ 1 := by
  obtain ⟨s1, q, heq, _, hq⟩ := getCategoryId_eq env s leaf hcons
  exact ⟨s1, q, by simp [buildCategory, hlast, heq, hid], hq⟩

theorem buildCategory_firstHit (env : Env) (cs : List String) (s : CState)
    (leaf : String) (misses : List String) (hit : String) (tail : List String)
    (pid : String) (hcons : CatConsistent env s)
    (hlast : cs.getLast? = some leaf)
    (hleaf : env.categorySearch leaf = none)
    (hsplit : cs.dropLast.reverse = misses ++ hit :: tail)
    (hmiss : ∀ m ∈ misses, env.categorySearch m = none)
    (hhit : env.categorySearch hit = some pid) :
    ∃ s1 q, buildCategory env cs s =
      (.ok (nestNames (leaf :: misses) (.byId (some pid))), s1, q) := by
  obtain ⟨s1, q1, heq, hcons1, _⟩ := getCategoryId_eq env s leaf hcons
  have hlen : cs.dropLast.reverse.length = cs.length - 1 := by
    simp [List.length_reverse, List.length_dropLast]
  have harith : 0 + misses.length + 1 + tail.length = cs.length - 1 := by
    rw [hsplit] at hlen
    simp only [List.length_append, List.length_cons] at hlen
    omega
  obtain ⟨s2, q2, hrec⟩ :=
    categoryWalk_hit env cs.length misses 0 hit tail pid leaf [] s1 hcons1
      hmiss hhit harith
  refine ⟨s2, q1 + q2, ?_⟩
  have henum : cs.dropLast.reverse.enum = List.enumFrom 0 (misses ++ hit :: tail) := by
    rw [List.enum, hsplit]
  have hchain : CatPayload.nameOnly leaf = nameChain leaf [] := rfl
  simp [buildCategory, hlast, heq, hleaf, henum, hchain, hrec]

theorem buildCategory_noneExist (env : Env) (cs : List String) (s : CState)
    (leaf : String) (hcons : CatConsistent env s)
    (hlast : cs.getLast? = some leaf)
    (hleaf : env.categorySearch leaf = none)
    (hne : cs.dropLast.reverse ≠ [])
    (hmiss : ∀ m ∈ cs.dropLast.reverse, env.categorySearch m = none) :
    ∃ s1 q, buildCategory env cs s =
      (.ok (nestNames (leaf :: cs.dropLast.reverse)
        (.byId (env.categorySearch "Home"))), s1, q) := by
  obtain ⟨s1, q1, heq, hcons1, _⟩ := getCategoryId_eq env s leaf hcons
  have hlen : cs.dropLast.reverse.length = cs.length - 1 := by
    simp [List.length_reverse, List.length_dropLast]
  obtain ⟨s2, q2, hrec⟩ :=
    categoryWalk_allMiss env cs.length cs.dropLast.reverse 0 leaf [] s1 hcons1
      hmiss hne (by omega)
  refine ⟨s2, q1 + q2, ?_⟩
  have hchain : CatPayload.nameOnly leaf = nameChain leaf [] := rfl
  simp only [buildCategory, hlast, heq, hchain, List.enum]
  simp [hrec, hleaf]

/-! ## Helper lemmas: the media upload loop -/

theorem fileNameExt_of_ok {u : String} (h : fileNameExtOk u = true) :
    ∃ pr, fileNameExt u = .ok pr := by
  cases hfe : fileNameExt u with
  | ok pr => exact ⟨pr, rfl⟩
  | error e => rw [fileNameExtOk, hfe] at h; simp at h

theorem enumFrom_filter_pos {α : Type} (p : Nat → Bool) (us : List α) :
    ∀ k, 1 ≤ k →
      ((List.enumFrom k us).filter (fun e => e.1 != 0 && p e.1)) =
      ((List.enumFrom k us).filter (fun e => p e.1)) := by
  induction us with
  | nil => intro k _; simp [List.enumFrom]
  | cons u us ih =>
    intro k hk
    have hk0 : (k != 0) = true := by
      cases k with
      | zero => omega
      | succ n => rfl
    rw [enumFrom_cons]
    simp only [List.filter_cons, hk0, Bool.true_and]
    rw [ih (k + 1) (by omega)]

theorem mediaLoop_tail (env : Env) (ctx : ItemCtx) (urls : List String) :
    ∀ (k : Nat), 1 ≤ k →
      (∀ u ∈ urls, fileNameExtOk u = true) →
      ∀ (cover : Option String) (gallery : List String) (s : CState),
      ∃ s1, mediaLoop env ctx (List.enumFrom k urls) cover gallery s =
        (.ok (cover, gallery ++
          (((List.enumFrom k urls).filter
            (fun e => ctx.mediaCreateOk e.1 && ctx.mediaUploadOk e.1)).map
            (fun e => ctx.mediaId e.1))), s1) := by
  induction urls with
  | nil => intro k _ _ cover gallery s; exact ⟨s, by simp [mediaLoop, List.enumFrom]⟩
  | cons u us ih =>
    intro k hk hw cover gallery s
    rw [enumFrom_cons]
    cases hc : ctx.mediaCreateOk k with
    | false =>
      obtain ⟨s1, h1⟩ := ih (k + 1) (by omega) (fun x hx => hw x (by simp [hx]))
        cover gallery (getProductMediaFolderId env s).2.1
      refine ⟨s1, ?_⟩
      simp [mediaLoop, hc, h1, List.filter_cons]
    | true =>
      obtain ⟨pr, hpr⟩ := fileNameExt_of_ok (hw u (by simp))
      cases hu : ctx.mediaUploadOk k with
      | false =>
        obtain ⟨s1, h1⟩ := ih (k + 1) (by omega) (fun x hx => hw x (by simp [hx]))
          cover gallery (getProductMediaFolderId env s).2.1
        refine ⟨s1, ?_⟩
        simp [mediaLoop, hc, hpr, hu, h1, List.filter_cons]
      | true =>
        have hk0 : ¬ (k = 0) := by omega
        obtain ⟨s1, h1⟩ := ih (k + 1) (by omega) (fun x hx => hw x (by simp [hx]))
          cover (gallery ++ [ctx.mediaId k]) (getProductMediaFolderId env s).2.1
        refine ⟨s1, ?_⟩
        simp [mediaLoop, hc, hpr, hu, hk0, h1, List.filter_cons]

theorem mediaLoop_spec (env : Env) (ctx : ItemCtx) (urls : List String)
    (s : CState) (hw : ∀ u ∈ urls, fileNameExtOk u = true) :
    ∃ s1, mediaLoop env ctx urls.enum none [] s =
      (.ok ((if urls.length != 0 && ctx.mediaCreateOk 0 && ctx.mediaUploadOk 0
             then some (ctx.mediaId 0) else none),
            ((urls.enum.filter
               (fun e => e.1 != 0 && (ctx.mediaCreateOk e.1 && ctx.mediaUploadOk e.1))).map
               (fun e => ctx.mediaId e.1))), s1) := by
  cases urls with
  | nil => exact ⟨s, by simp [mediaLoop, List.enum, List.enumFrom]⟩
  | cons u us =>
    have henum : (u :: us).enum = (0, u) :: List.enumFrom 1 us := rfl
    rw [henum]
    have hfilter :
        ((((0 : Nat), u) :: List.enumFrom 1 us).filter
          (fun e => e.1 != 0 && (ctx.mediaCreateOk e.1 && ctx.mediaUploadOk e.1))) =
        ((List.enumFrom 1 us).filter
          (fun e => ctx.mediaCreateOk e.1 && ctx.mediaUploadOk e.1)) := by
      rw [List.filter_cons]
      simp only [bne_self_eq_false, Bool.false_and, if_neg Bool.false_ne_true]
      exact enumFrom_filter_pos
        (fun i => ctx.mediaCreateOk i && ctx.mediaUploadOk i) us 1 (by omega)
    rw [hfilter]
    cases hc : ctx.mediaCreateOk 0 with
    | false =>
      obtain ⟨s1, h1⟩ := mediaLoop_tail env ctx us 1 (by omega)
        (fun x hx => hw x (by simp [hx])) none [] (getProductMediaFolderId env s).2.1
      refine ⟨s1, ?_⟩
      simp [mediaLoop, hc, h1]
    | true =>
      obtain ⟨pr, hpr⟩ := fileNameExt_of_ok (hw u (by simp))
      cases hu : ctx.mediaUploadOk 0 with
      | false =>
        obtain ⟨s1, h1⟩ := mediaLoop_tail env ctx us 1 (by omega)
          (fun x hx => hw x (by simp [hx])) none [] (getProductMediaFolderId env s).2.1
        refine ⟨s1, ?_⟩
        simp [mediaLoop, hc, hpr, hu, h1]
      | true =>
        obtain ⟨s1, h1⟩ := mediaLoop_tail env ctx us 1 (by omega)
          (fun x hx => hw x (by simp [hx])) (some (ctx.mediaId 0)) []
          (getProductMediaFolderId env s).2.1
        refine ⟨s1, ?_⟩
        simp [mediaLoop, hc, hpr, hu, h1]

/-! ## Helper lemmas: pagination chains -/

theorem chainSpec_tail {fetch : String → Page} {l l2 : String} {ls : List String}
    (hc : ChainSpec fetch (l :: l2 :: ls)) : ChainSpec fetch (l2 :: ls) := by
  refine ⟨by simp, ?_, ?_⟩
  · intro i h
    have := hc.notCat (i + 1) (by simp only [List.length_cons] at h ⊢; omega)
    simpa using this
  · intro i h
    have hstep := hc.nextAt (i + 1) (by simp only [List.length_cons] at h ⊢; omega)
    simp only [List.get_cons_succ] at hstep
    rw [hstep]
    by_cases h2 : i + 1 < (l2 :: ls).length
    · rw [dif_pos (by simp only [List.length_cons] at h2 ⊢; omega), dif_pos h2]
      simp
    · rw [dif_neg (by simp only [List.length_cons] at h2 ⊢; omega), dif_neg h2]

theorem chainSpec_get_shift {fetch : String → Page} {ls : List String}
    (hc : ChainSpec fetch ls) :
    ∀ (d i j : Nat) (hi : i + d < ls.length) (hj : j + d < ls.length),
      ls.get ⟨i, Nat.lt_of_le_of_lt (Nat.le_add_right i d) hi⟩ =
        ls.get ⟨j, Nat.lt_of_le_of_lt (Nat.le_add_right j d) hj⟩ →
      ls.get ⟨i + d, hi⟩ = ls.get ⟨j + d, hj⟩ := by
  intro d
  induction d with
  | zero => intro i j hi hj h; exact h
  | succ d ih =>
    intro i j hi hj h
    have hi' : i + d < ls.length := by omega
    have hj' : j + d < ls.length := by omega
    have hgd : ls.get ⟨i + d, hi'⟩ = ls.get ⟨j + d, hj'⟩ := ih i j hi' hj' h
    have h1 := hc.nextAt (i + d) hi'
    have h2 := hc.nextAt (j + d) hj'
    rw [hgd] at h1
    have h3 := h1.symm.trans h2
    rw [dif_pos (show i + d + 1 < ls.length by omega),
        dif_pos (show j + d + 1 < ls.length by omega)] at h3
    injection h3

theorem chainSpec_nodup {fetch : String → Page} {ls : List String}
    (hc : ChainSpec fetch ls) : ls.Nodup := by
  rw [List.nodup_iff_injective_get]
  have main : ∀ (a b : Fin ls.length), a.val < b.val → ls.get a ≠ ls.get b := by
    intro a b hlt heq
    have hblen : b.val < ls.length := b.isLt
    have hi : a.val + (ls.length - 1 - b.val) < ls.length := by omega
    have hj : b.val + (ls.length - 1 - b.val) < ls.length := by omega
    have hsh := chainSpec_get_shift hc (ls.length - 1 - b.val) a.val b.val hi hj heq
    have h1 := hc.nextAt (a.val + (ls.length - 1 - b.val)) hi
    have h2 := hc.nextAt (b.val + (ls.length - 1 - b.val)) hj
    rw [hsh] at h1
    have h3 := h1.symm.trans h2
    rw [dif_pos (show a.val + (ls.length - 1 - b.val) + 1 < ls.length by omega)] at h3
    rw [dif_neg (show ¬ (b.val + (ls.length - 1 - b.val) + 1 < ls.length) by omega)] at h3
    exact Option.noConfusion h3
  intro a b hab
  rcases Nat.lt_trichotomy a.val b.val with h | h | h
  · exact absurd hab (main a b h)
  · exact Fin.ext h
  · exact absurd hab.symm (main b a h)

theorem crawlSeed_chain (fetch : String → Page) :
    ∀ (ls : List String), ChainSpec fetch ls →
      ∀ (fuel : Nat), ls.length ≤ fuel →
      crawlSeed fetch fuel (ls.headD "") =
        some (ls, (ls.map (fun l => pageProducts (fetch l))).flatten) := by
  intro ls
  induction ls with
  | nil => intro hc; exact absurd rfl hc.ne
  | cons l ls' ih =>
    intro hc fuel hf
    cases fuel with
    | zero => simp at hf
    | succ f =>
      have hnotcat : (fetch l).isCatalogPage = false := by
        have := hc.notCat 0 (by simp)
        simpa using this
      cases ls' with
      | nil =>
        have hnext : (fetch l).next = none := by
          have h0 := hc.nextAt 0 (by simp)
          rw [dif_neg (by simp)] at h0
          simpa using h0
        simp [crawlSeed, hnotcat, hnext]
      | cons l2 ls'' =>
        have hnext : (fetch l).next = some l2 := by
          have h0 := hc.nextAt 0 (by simp)
          rw [dif_pos (by simp only [List.length_cons]; omega)] at h0
          simpa using h0
        have hrec := ih (chainSpec_tail hc) f
          (by simp only [List.length_cons] at hf ⊢; omega)
        simp only [List.headD_cons] at hrec
        simp [crawlSeed, hnotcat, hnext, hrec]

/-! ## Helper lemmas: the product submission loop -/

theorem sendData_remote_mono (env : Env) (ctx : Nat → ItemCtx) :
    ∀ (products : List ProductR) (k : Nat) (s : CState)
      (remote : List (String × String)) (n : String),
      dictGet n remote ≠ none →
      dictGet n (sendData env ctx products k s remote).2.2 ≠ none := by
  intro products
  induction products with
  | nil => intro k s remote n h; simpa [sendData] using h
  | cons p rest ih =>
    intro k s remote n h
    rcases hpd : productData env (ctx k) s p with ⟨res, s1⟩
    match res with
    | .error e =>
      have := ih (k + 1) s1 remote n h
      simpa [sendData, hpd] using this
    | .ok none =>
      have := ih (k + 1) s1 remote n h
      simpa [sendData, hpd] using this
    | .ok (some pd) =>
      cases hlook : lookupRemoteProduct remote pd.name with
      | some pid =>
        have := ih (k + 1) s1 remote n h
        simpa [sendData, hpd, hlook] using this
      | none =>
        cases hpo : (ctx k).postOk with
        | false =>
          have := ih (k + 1) s1 remote n h
          simpa [sendData, hpd, hlook, hpo] using this
        | true =>
          have hkeep : dictGet n (dictSet pd.name (ctx k).createdId remote) ≠ none := by
            rw [dictGet_dictSet]
            by_cases hn : n = pd.name
            · simp [hn]
            · simpa [hn] using h
          have := ih (k + 1) s1 (dictSet pd.name (ctx k).createdId remote) n hkeep
          simpa [sendData, hpd, hlook, hpo] using this

theorem sendData_second_run_no_creates (env : Env) (ctx : Nat → ItemCtx) :
    ∀ (products : List ProductR) (k : Nat) (s : CState)
      (r r' : List (String × String)),
      (∀ o ∈ (sendData env ctx products k s r).1, o.submitOk = true) →
      (∀ n, dictGet n (sendData env ctx products k s r).2.2 ≠ none →
            dictGet n r' ≠ none) →
      ∀ o ∈ (sendData env ctx products k s r').1, o.isCreate = false := by
  intro products
  induction products with
  | nil => intro k s r r' _ _ o ho; simp [sendData] at ho
  | cons p rest ih =>
    intro k s r r' h1 h2 o ho
    rcases hpd : productData env (ctx k) s p with ⟨res, s1⟩
    match res with
    | .error e =>
      have := h1 (.exc e) (by simp [sendData, hpd])
      simp [Outcome.submitOk] at this
    | .ok none =>
      have := h1 .currencyMiss (by simp [sendData, hpd])
      simp [Outcome.submitOk] at this
    | .ok (some pd) =>
      cases hlook : lookupRemoteProduct r pd.name with
      | none =>
        have hpo : (ctx k).postOk = true := by
          have := h1 (.posted
            { base := pd, productNumber := some pd.productNumber,
              visibilities := true } (ctx k).postOk)
            (by simp [sendData, hpd, hlook])
          simpa [Outcome.submitOk] using this
        have hmem : dictGet pd.name
            (sendData env ctx rest (k + 1) s1
              (dictSet pd.name (ctx k).createdId r)).2.2 ≠ none := by
          apply sendData_remote_mono
          rw [dictGet_dictSet]
          simp
        have hr' : dictGet pd.name r' ≠ none := by
          apply h2
          simpa [sendData, hpd, hlook, hpo] using hmem
        obtain ⟨pid, hpid⟩ : ∃ pid, lookupRemoteProduct r' pd.name = some pid := by
          cases hx : dictGet pd.name r' with
          | none => exact absurd hx hr'
          | some pid => exact ⟨pid, hx⟩
        rw [show (sendData env ctx (p :: rest) k s r').1 =
            .patched pid { base := pd, productNumber := none, visibilities := false }
              (ctx k).patchOk :: (sendData env ctx rest (k + 1) s1 r').1 from
          by simp [sendData, hpd, hpid]] at ho
        rcases List.mem_cons.mp ho with ho | ho
        · subst ho; rfl
        · refine ih (k + 1) s1 (dictSet pd.name (ctx k).createdId r) r' ?_ ?_ o ho
          · intro o1 ho1
            exact h1 o1 (by simp [sendData, hpd, hlook, hpo]; right; exact ho1)
          · intro n hn
            apply h2
            simpa [sendData, hpd, hlook, hpo] using hn
      | some pid1 =>
        have hinr : dictGet pd.name r ≠ none := by
          simp only [lookupRemoteProduct] at hlook
          rw [hlook]
          simp
        have hmem : dictGet pd.name
            (sendData env ctx rest (k + 1) s1 r).2.2 ≠ none :=
          sendData_remote_mono env ctx rest (k + 1) s1 r pd.name hinr
        have hr' : dictGet pd.name r' ≠ none := by
          apply h2
          simpa [sendData, hpd, hlook] using hmem
        obtain ⟨pid, hpid⟩ : ∃ pid, lookupRemoteProduct r' pd.name = some pid := by
          cases hx : dictGet pd.name r' with
          | none => exact absurd hx hr'
          | some pid => exact ⟨pid, hx⟩
        rw [show (sendData env ctx (p :: rest) k s r').1 =
            .patched pid { base := pd, productNumber := none, visibilities := false }
              (ctx k).patchOk :: (sendData env ctx rest (k + 1) s1 r').1 from
          by simp [sendData, hpd, hpid]] at ho
        rcases List.mem_cons.mp ho with ho | ho
        · subst ho; rfl
        · refine ih (k + 1) s1 r r' ?_ ?_ o ho
          · intro o1 ho1
            exact h1 o1 (by simp [sendData, hpd, hlook]; right; exact ho1)
          · intro n hn
            apply h2
            simpa [sendData, hpd, hlook] using hn

theorem sendData_length (env : Env) (ctx : Nat → ItemCtx) :
    ∀ (products : List ProductR) (k : Nat) (s : CState)
      (remote : List (String × String)),
      (sendData env ctx products k s remote).1.length = products.length := by
  intro products
  induction products with
  | nil => intro k s remote; simp [sendData]
  | cons p rest ih =>
    intro k s remote
    rcases hpd : productData env (ctx k) s p with ⟨res, s1⟩
    match res with
    | .error e => simp [sendData, hpd, ih]
    | .ok none => simp [sendData, hpd, ih]
    | .ok (some pd) =>
      cases hlook : lookupRemoteProduct remote pd.name <;>
        simp [sendData, hpd, hlook, ih]

theorem sendData_cons_error (env : Env) (ctx : Nat → ItemCtx) (p : ProductR)
    (rest : List ProductR) (k : Nat) (s : CState)
    (remote : List (String × String)) (e : String) (s1 : CState)
    (h : productData env (ctx k) s p = (.error e, s1)) :
    sendData env ctx (p :: rest) k s remote =
      (.exc e :: (sendData env ctx rest (k + 1) s1 remote).1,
       (sendData env ctx rest (k + 1) s1 remote).2) := by
  simp [sendData, h]

theorem sendData_cons_currencyMiss (env : Env) (ctx : Nat → ItemCtx)
    (p : ProductR) (rest : List ProductR) (k : Nat) (s : CState)
    (remote : List (String × String)) (s1 : CState)
    (h : productData env (ctx k) s p = (.ok none, s1)) :
    sendData env ctx (p :: rest) k s remote =
      (.currencyMiss :: (sendData env ctx rest (k + 1) s1 remote).1,
       (sendData env ctx rest (k + 1) s1 remote).2) := by
  simp [sendData, h]

theorem sendData_cons_post (env : Env) (ctx : Nat → ItemCtx) (p : ProductR)
    (rest : List ProductR) (k : Nat) (s : CState)
    (remote : List (String × String)) (pd : OutPayload) (s1 : CState)
    (h : productData env (ctx k) s p = (.ok (some pd), s1))
    (hlook : lookupRemoteProduct remote pd.name = none) :
    (sendData env ctx (p :: rest) k s remote).1 =
      .posted { base := pd, productNumber := some pd.productNumber,
                visibilities := true } (ctx k).postOk ::
      (sendData env ctx rest (k + 1) s1
        (if (ctx k).postOk then dictSet pd.name (ctx k).createdId remote
         else remote)).1 := by
  simp [sendData, h, hlook]

theorem sendData_cons_patch (env : Env) (ctx : Nat → ItemCtx) (p : ProductR)
    (rest : List ProductR) (k : Nat) (s : CState)
    (remote : List (String × String)) (pd : OutPayload) (s1 : CState)
    (pid : String)
    (h : productData env (ctx k) s p = (.ok (some pd), s1))
    (hlook : lookupRemoteProduct remote pd.name = some pid) :
    (sendData env ctx (p :: rest) k s remote).1 =
      .patched pid { base := pd, productNumber := none, visibilities := false }
        (ctx k).patchOk ::
      (sendData env ctx rest (k + 1) s1 remote).1 := by
  simp [sendData, h, hlook]

/-! ## Helper lemmas: prices and the transform -/

theorem parsePrice_ok (price num symbol : String) (n : Nat)
    (h1 : pySplitWS price = [num, symbol])
    (h2 : pyFloatNat ((pySplitChar ',' num).headD "") = some n) :
    parsePrice price = .ok (n, symbol) := by
  simp only [parsePrice, h1, h2]

theorem parsePrice_no_two_fields (price : String)
    (h : (pySplitWS price).length ≠ 2) :
    parsePrice price = .error "ValueError: not enough values to unpack" := by
  rcases hs : pySplitWS price with _ | ⟨a, _ | ⟨b, _ | ⟨c, t⟩⟩⟩
  · simp [parsePrice, hs]
  · simp [parsePrice, hs]
  · rw [hs] at h; simp at h
  · simp [parsePrice, hs]

theorem productData_price_error (env : Env) (ctx : ItemCtx) (s : CState)
    (p : ProductR) (e : String) (h : parsePrice p.price = .error e) :
    productData env ctx s p = (.error e, s) := by
  simp [productData, h]

theorem productData_price_fields (env : Env) (ctx : ItemCtx) (s : CState)
    (p : ProductR) (n : Nat) (symbol : String) (pd : OutPayload)
    (hpp : parsePrice p.price = .ok (n, symbol))
    (hok : (productData env ctx s p).1 = .ok (some pd)) :
    ∃ cid, (getCurrencyId env s symbol).1 = some cid ∧
      pd.price = ⟨cid, n, n, true⟩ := by
  rcases hrc : getCurrencyId env s symbol with ⟨copt, s1, q1⟩
  cases copt with
  | none => simp [productData, hpp, hrc] at hok
  | some cid =>
    rcases hbc : buildCategory env p.category_set s1 with ⟨cres, s2, q2⟩
    cases cres with
    | error e => simp [productData, hpp, hrc, hbc] at hok
    | ok cat =>
      rcases hml : mediaLoop env ctx p.image_urls.enum none [] s2 with ⟨mres, s3⟩
      cases mres with
      | error e => simp [productData, hpp, hrc, hbc, hml] at hok
      | ok cg =>
        obtain ⟨cover, gallery⟩ := cg
        rcases htx : getStandardTaxId env s3 with ⟨tres, s4, q4⟩
        cases tres with
        | error e => simp [productData, hpp, hrc, hbc, hml, htx] at hok
        | ok tid =>
          simp only [productData, hpp, hrc, hbc, hml, htx] at hok
          simp only [Except.ok.injEq, Option.some.injEq] at hok
          refine ⟨cid, rfl, ?_⟩
          rw [← hok]

/-- The payload name always comes straight from the product record. -/
theorem productData_name (env : Env) (ctx : ItemCtx) (s : CState)
    (p : ProductR) (pd : OutPayload)
    (hok : (productData env ctx s p).1 = .ok (some pd)) :
    pd.name = p.name := by
  rcases hpp : parsePrice p.price with e | ⟨n, symbol⟩
  · simp [productData, hpp] at hok
  · rcases hrc : getCurrencyId env s symbol with ⟨copt, s1, q1⟩
    cases copt with
    | none => simp [productData, hpp, hrc] at hok
    | some cid =>
      rcases hbc : buildCategory env p.category_set s1 with ⟨cres, s2, q2⟩
      cases cres with
      | error e => simp [productData, hpp, hrc, hbc] at hok
      | ok cat =>
        rcases hml : mediaLoop env ctx p.image_urls.enum none [] s2 with ⟨mres, s3⟩
        cases mres with
        | error e => simp [productData, hpp, hrc, hbc, hml] at hok
        | ok cg =>
          obtain ⟨cover, gallery⟩ := cg
          rcases htx : getStandardTaxId env s3 with ⟨tres, s4, q4⟩
          cases tres with
          | error e => simp [productData, hpp, hrc, hbc, hml, htx] at hok
          | ok tid =>
            simp only [productData, hpp, hrc, hbc, hml, htx] at hok
            simp only [Except.ok.injEq, Option.some.injEq] at hok
            rw [← hok]

theorem getD_append_self (l : List (List String)) (v : List String) :
    (l ++ [v]).getD l.length [] = v := by
  induction l with
  | nil => rfl
  | cons a t ih =>
    rw [List.cons_append, List.length_cons, List.getD_cons_succ]
    exact ih

/-! ## Claims -/

/-- C1: the spec claims that for every successfully fetched, selector-matching
product detail page, `grab()` parses a Product record carrying the extracted
fields plus the category title and appends it to the result, a per-product
parse failure only skipping that product.  The code contradicts the first
part: `_parse_product` calls `Product(..., category=...)` while
`Product.__init__` has no `category` parameter (its fourth parameter is
`category_set`), so the keyword call raises `TypeError` for every product
page; each product is logged and skipped (the pagination loop does continue),
and the crawl of a fully well-formed two-page catalog yields no product at
all while still visiting both pages. -/
theorem c1_parse_product_type_error :
    pyKwargsMatch parseProductKwargNames productInitParams = false ∧
    parseProductPage pageFull "LED" =
      .error "TypeError: unexpected keyword argument category" ∧
    crawlSeed fetchC1 2 "q1" = some (["q1", "q2"], []) := by
  decide

/-- C4: the claim says each of the four reference mappings caches a hit in
its own mapping, a repeated key is then served without a further remote
query, and a miss is returned as absent without being cached.  That is what
the currency, category and media-folder resolvers do, but the tax resolver
writes the fetched id into the currencies dict (client.py line 312) and
leaves `self.taxes` empty, so a second standard-tax resolution issues a
remote query again; this theorem evaluates the code at that failing input. -/
theorem c4_tax_cached_in_wrong_mapping :
    (getCurrencyId envProd (getCurrencyId envProd cs0 "EUR").2.1 "EUR" =
      (some "CUR", (getCurrencyId envProd cs0 "EUR").2.1, 0)) ∧
    (getCategoryId envProd (getCategoryId envProd cs0 "Cat").2.1 "Cat" =
      (some "CATID", (getCategoryId envProd cs0 "Cat").2.1, 0)) ∧
    (getProductMediaFolderId envProd (getProductMediaFolderId envProd cs0).2.1 =
      (some "MF", (getProductMediaFolderId envProd cs0).2.1, 0)) ∧
    (getCurrencyId envProd cs0 "USD" = (none, cs0, 1)) ∧
    ((getStandardTaxId envProd cs0).2.2 = 1) ∧
    ((getStandardTaxId envProd (getStandardTaxId envProd cs0).2.1).2.2 = 1) ∧
    ((getStandardTaxId envProd (getStandardTaxId envProd cs0).2.1).2.1.taxes = []) ∧
    (dictGet "standard"
      (getStandardTaxId envProd (getStandardTaxId envProd cs0).2.1).2.1.currencies =
      some "TAX") := by
  decide

/-- C2 counterexample: with images [A, B, C], create succeeding everywhere
and the upload of A (index 0) failing while B and C succeed, the first
successfully uploaded image is B (index 1), yet the media loop sets no cover
at all and puts both B and C into the gallery — refuting the claim that the
first successfully uploaded image becomes the cover reference. -/
theorem c2_counterexample :
    (mediaLoop envProd ctxFailA urlsABC.enum none [] cs0).1 =
      .ok (none, ["m1", "m2"]) ∧
    specFirstSuccessfulUpload ctxFailA.mediaCreateOk ctxFailA.mediaUploadOk 3 =
      some 1 ∧
    ¬ ((mediaLoop envProd ctxFailA urlsABC.enum none [] cs0).1 =
        .ok (some (ctxFailA.mediaId 1), ["m2"])) := by
  decide

/-- C2 (amended): images are processed in `image_urls` order; the image at
index 0 becomes the cover exactly when its own create and upload succeed (if
the first image fails the product gets no cover), every successful upload at
a later index is appended to the gallery in order, and a create or upload
failure skips only that image — the loop still returns successfully for the
remaining images and the product.  The claimed [A, B, C] example with B
failing does hold: A is the cover and C the sole gallery entry of the
submitted payload. -/
theorem c2_cover_gallery :
    (∀ (env : Env) (ctx : ItemCtx) (urls : List String) (s : CState),
      (∀ u ∈ urls, fileNameExtOk u = true) →
      ∃ s1, mediaLoop env ctx urls.enum none [] s =
        (.ok ((if urls.length != 0 && ctx.mediaCreateOk 0 && ctx.mediaUploadOk 0
               then some (ctx.mediaId 0) else none),
              ((urls.enum.filter
                 (fun e => e.1 != 0 &&
                   (ctx.mediaCreateOk e.1 && ctx.mediaUploadOk e.1))).map
                 (fun e => ctx.mediaId e.1))), s1)) ∧
    ((productData envProd ctxFailB cs0 prodABC).1 = .ok (some pdABC) ∧
      pdABC.cover = some "m0" ∧ pdABC.media = ["m2"]) := by
  constructor
  · exact fun env ctx urls s hw => mediaLoop_spec env ctx urls s hw
  · exact ⟨by decide, by decide, by decide⟩

/-- C2 witness: the general cover and gallery description instantiated at the
[A, B, C] images with every step succeeding. -/
theorem c2_cover_gallery_witness :
    ∃ s1, mediaLoop envProd ctxFailB urlsABC.enum none [] cs0 =
      (.ok (some "m0", ["m2"]), s1) := by
  obtain ⟨s1, h⟩ := c2_cover_gallery.1 envProd ctxFailB urlsABC cs0 (by decide)
  refine ⟨s1, ?_⟩
  rw [h]
  congr 1

/-- C3 counterexample: with a non-success refresh response the refresh loop
does raise, but the failure does not reach process level: the run completes
with no fatal error and the single product is still submitted successfully.
The never-awaited background task keeps the exception. -/
theorem c3_counterexample :
    refreshLoop authFix [respBad] = .error "shopware refresh error" ∧
    (appRun envProd ctxOk [prodGood1] true authFix [respBad] cs0 []).fatal =
      none ∧
    ((appRun envProd ctxOk [prodGood1] true authFix [respBad] cs0 []).outcomes.map
        Outcome.submitOk) = [true] := by
  decide

/-- C3 (amended): a non-success token-refresh response makes the refresh loop
raise `Exception("shopware refresh error")` and stop — no retry, the
remaining responses are never consumed — but the failure stays confined to
the background task, which `send_data` never awaits: with auth succeeded the
run is never fatal and the submission outcomes do not depend on the refresh
responses at all. -/
theorem c3_refresh_failure_confined :
    (∀ (st : AuthSt) (r : RefreshResp) (rest : List RefreshResp),
      r.status ≠ 200 →
      refreshLoop st (r :: rest) = .error "shopware refresh error") ∧
    (∀ (env : Env) (ctx : Nat → ItemCtx) (products : List ProductR)
       (auth0 : AuthSt) (resps resps' : List RefreshResp) (s : CState)
       (remote : List (String × String)),
      (appRun env ctx products true auth0 resps s remote).fatal = none ∧
      (appRun env ctx products true auth0 resps s remote).outcomes =
        (appRun env ctx products true auth0 resps' s remote).outcomes) := by
  constructor
  · intro st r rest h
    simp [refreshLoop, refreshStep, h]
  · intro env ctx products auth0 resps resps' s remote
    constructor <;> simp [appRun]

/-- C3 witness: the refresh-raise conjunct at a concrete 400 response, and
the never-fatal conjunct at a concrete run. -/
theorem c3_refresh_failure_confined_witness :
    refreshLoop authFix [respBad, respOk] = .error "shopware refresh error" ∧
    (appRun envProd ctxOk [prodGood1] true authFix [respOk] cs0 []).fatal =
      none := by
  exact ⟨c3_refresh_failure_confined.1 authFix respBad [respOk] (by decide),
    (c3_refresh_failure_confined.2 envProd ctxOk [prodGood1] authFix
      [respOk] [] cs0 []).1⟩

/-- C5: for a price string whose single space separates the amount from the
symbol, the transform keeps only the integer part before the comma decimal
separator (truncation, not rounding — "19,99 EUR" gives 19 and "EUR") and
uses it as both gross and net linked price paired with the resolved currency
id; a price string without a space raises inside `_product_data`, which
`send_data` catches per product — the product is skipped and the rest of the
batch is still processed, the run does not crash. -/
theorem c5_price_parsing :
    (∀ (price num symbol : String) (n : Nat),
      pySplitWS price = [num, symbol] →
      pyFloatNat ((pySplitChar ',' num).headD "") = some n →
      parsePrice price = .ok (n, symbol)) ∧
    parsePrice "19,99 EUR" = .ok (19, "EUR") ∧
    parsePrice "19,99EUR" = .error "ValueError: not enough values to unpack" ∧
    (∀ (env : Env) (ctx : ItemCtx) (s : CState) (p : ProductR) (n : Nat)
       (symbol : String) (pd : OutPayload),
      parsePrice p.price = .ok (n, symbol) →
      (productData env ctx s p).1 = .ok (some pd) →
      ∃ cid, (getCurrencyId env s symbol).1 = some cid ∧
        pd.price = ⟨cid, n, n, true⟩) ∧
    (∀ price : String, (pySplitWS price).length ≠ 2 →
      parsePrice price = .error "ValueError: not enough values to unpack") ∧
    (∀ (env : Env) (ctx : Nat → ItemCtx) (p : ProductR) (rest : List ProductR)
       (k : Nat) (s : CState) (remote : List (String × String)) (e : String),
      parsePrice p.price = .error e →
      sendData env ctx (p :: rest) k s remote =
        (.exc e :: (sendData env ctx rest (k + 1) s remote).1,
         (sendData env ctx rest (k + 1) s remote).2)) ∧
    ((sendData envProd ctxOk [prodBadPrice, prodGood1] 0 cs0 []).1.map
      Outcome.isExc = [true, false]) := by
  refine ⟨parsePrice_ok, by decide, by decide, productData_price_fields,
    parsePrice_no_two_fields, ?_, by decide⟩
  intro env ctx p rest k s remote e h
  exact sendData_cons_error env ctx p rest k s remote e s
    (productData_price_error env (ctx k) s p e h)

/-- C5 witness: the truncation conjunct at "19,99 EUR" and the skip conjunct
at a product whose price has no space, with a further product in the batch. -/
theorem c5_price_parsing_witness :
    parsePrice "19,99 EUR" = .ok (19, "EUR") ∧
    sendData envProd ctxOk [prodBadPrice, prodGood1] 0 cs0 [] =
      (.exc "ValueError: not enough values to unpack" ::
        (sendData envProd ctxOk [prodGood1] 1 cs0 []).1,
       (sendData envProd ctxOk [prodGood1] 1 cs0 []).2) := by
  exact ⟨c5_price_parsing.1 "19,99 EUR" "19,99" "EUR" 19 (by decide) (by decide),
    c5_price_parsing.2.2.2.2.2.1 envProd ctxOk prodBadPrice [prodGood1] 0 cs0 []
      "ValueError: not enough values to unpack" (by decide)⟩

/-- C6: the category payload resolves the leaf first — if it exists remotely
the payload is exactly the id reference, with at most the single leaf query
and no ancestor work; otherwise the payload carries the leaf by name and the
walk goes nearest parent to root, attaching each missing ancestor by name
and stopping at the first ancestor that resolves, attached by id, creating
nothing above it; if no ancestor resolves, the default parent "Home" is
attached by (possibly absent) id at the top of the chain.  In the
["Home", "Indoor", "LED Lights"] example with only "Indoor" existing,
exactly one category ("LED Lights") is created, referencing "Indoor" by id,
and "Home" is never re-created. -/
theorem c6_category_payload :
    (∀ (env : Env) (cs : List String) (s : CState) (leaf cid : String),
      CatConsistent env s → cs.getLast? = some leaf →
      env.categorySearch leaf = some cid →
      ∃ s1 q, buildCategory env cs s = (.ok (.byId (some cid)), s1, q) ∧
        q ≤ 1) ∧
    (∀ (env : Env) (cs : List String) (s : CState) (leaf : String)
       (misses : List String) (hit : String) (tail : List String)
       (pid : String),
      CatConsistent env s → cs.getLast? = some leaf →
      env.categorySearch leaf = none →
      cs.dropLast.reverse = misses ++ hit :: tail →
      (∀ m ∈ misses, env.categorySearch m = none) →
      env.categorySearch hit = some pid →
      ∃ s1 q, buildCategory env cs s =
        (.ok (nestNames (leaf :: misses) (.byId (some pid))), s1, q)) ∧
    (∀ (env : Env) (cs : List String) (s : CState) (leaf : String),
      CatConsistent env s → cs.getLast? = some leaf →
      env.categorySearch leaf = none →
      cs.dropLast.reverse ≠ [] →
      (∀ m ∈ cs.dropLast.reverse, env.categorySearch m = none) →
      ∃ s1 q, buildCategory env cs s =
        (.ok (nestNames (leaf :: cs.dropLast.reverse)
          (.byId (env.categorySearch "Home"))), s1, q)) ∧
    (buildCategory envC6 ["Home", "Indoor", "LED Lights"] cs0 =
      (.ok (.nameParent "LED Lights" (.byId (some "IND"))),
       ⟨[], [("Indoor", "IND")], [], []⟩, 2) ∧
     newNames (.nameParent "LED Lights" (.byId (some "IND"))) =
       ["LED Lights"]) := by
  exact ⟨buildCategory_leafFound, buildCategory_firstHit,
    buildCategory_noneExist, by decide, by decide⟩

/-- C6 witness: the leaf-exists conjunct at a singleton chain and the
stop-at-first-existing-ancestor conjunct at the claimed example. -/
theorem c6_category_payload_witness :
    (∃ s1 q, buildCategory envC6 ["Indoor"] cs0 =
      (.ok (.byId (some "IND")), s1, q) ∧ q ≤ 1) ∧
    (∃ s1 q, buildCategory envC6 ["Home", "Indoor", "LED Lights"] cs0 =
      (.ok (nestNames ["LED Lights"] (.byId (some "IND"))), s1, q)) := by
  constructor
  · exact c6_category_payload.1 envC6 ["Indoor"] cs0 "Indoor" "IND"
      (catConsistent_cs0 envC6) (by decide) (by decide)
  · exact c6_category_payload.2.1 envC6 ["Home", "Indoor", "LED Lights"] cs0
      "LED Lights" [] "Indoor" ["Home"] "IND" (catConsistent_cs0 envC6)
      (by decide) (by decide) (by decide) (by simp) (by decide)

/-- C7: submission is decided by an exact-name existence query: no match
gives a POST whose payload keeps the generated product number and carries
the sales-channel visibility, a match gives a PATCH addressed by the remote
id with the product number removed; and a second run over the same products
from the same fresh cache state, against the remote set the first run left
behind, issues zero creates provided every first-run outcome was a
submission whose create succeeded. -/
theorem c7_idempotent_submission :
    (∀ (env : Env) (ctx : Nat → ItemCtx) (p : ProductR)
       (rest : List ProductR) (k : Nat) (s : CState)
       (remote : List (String × String)) (pd : OutPayload) (s1 : CState),
      productData env (ctx k) s p = (.ok (some pd), s1) →
      (lookupRemoteProduct remote pd.name = none →
        (sendData env ctx (p :: rest) k s remote).1.headD .currencyMiss =
          .posted { base := pd, productNumber := some pd.productNumber,
                    visibilities := true } (ctx k).postOk) ∧
      (∀ pid, lookupRemoteProduct remote pd.name = some pid →
        (sendData env ctx (p :: rest) k s remote).1.headD .currencyMiss =
          .patched pid { base := pd, productNumber := none,
                         visibilities := false } (ctx k).patchOk)) ∧
    (∀ (env : Env) (ctx : Nat → ItemCtx) (products : List ProductR)
       (s : CState) (remote : List (String × String)),
      (∀ o ∈ (sendData env ctx products 0 s remote).1, o.submitOk = true) →
      ∀ o ∈ (sendData env ctx products 0 s
              (sendData env ctx products 0 s remote).2.2).1,
        o.isCreate = false) := by
  constructor
  · intro env ctx p rest k s remote pd s1 hpd
    constructor
    · intro hlook
      rw [sendData_cons_post env ctx p rest k s remote pd s1 hpd hlook]
      rfl
    · intro pid hlook
      rw [sendData_cons_patch env ctx p rest k s remote pd s1 pid hpd hlook]
      rfl
  · intro env ctx products s remote h1
    exact sendData_second_run_no_creates env ctx products 0 s remote
      (sendData env ctx products 0 s remote).2.2 h1 (fun n h => h)

/-- C7 witness: a second run over two products, against the remote product
set produced by a first run whose creates succeeded, issues zero creates. -/
theorem c7_idempotent_submission_witness :
    ∀ o ∈ (sendData envProd ctxOk [prodGood1, prodGood2] 0 cs0
            (sendData envProd ctxOk [prodGood1, prodGood2] 0 cs0 []).2.2).1,
      o.isCreate = false := by
  exact c7_idempotent_submission.2 envProd ctxOk [prodGood1, prodGood2] cs0 []
    (by decide)

/-- C8: per-product failures never cross item boundaries: the loop records
exactly one outcome per product in order; a currency miss skips that product
entirely — no submission request, the remote set untouched — and the loop
moves on; a transform exception is caught, recorded and the loop moves on;
the refresh task is cancelled once the loop over all products completes; in
a concrete batch of five where the third transform raises, products one,
two, four and five are all attempted and submitted. -/
theorem c8_fault_isolation :
    (∀ (env : Env) (ctx : Nat → ItemCtx) (products : List ProductR) (k : Nat)
       (s : CState) (remote : List (String × String)),
      (sendData env ctx products k s remote).1.length = products.length) ∧
    (∀ (env : Env) (ctx : Nat → ItemCtx) (p : ProductR)
       (rest : List ProductR) (k : Nat) (s s1 : CState)
       (remote : List (String × String)),
      productData env (ctx k) s p = (.ok none, s1) →
      sendData env ctx (p :: rest) k s remote =
        (.currencyMiss :: (sendData env ctx rest (k + 1) s1 remote).1,
         (sendData env ctx rest (k + 1) s1 remote).2)) ∧
    (∀ (env : Env) (ctx : Nat → ItemCtx) (p : ProductR)
       (rest : List ProductR) (k : Nat) (s s1 : CState)
       (remote : List (String × String)) (e : String),
      productData env (ctx k) s p = (.error e, s1) →
      sendData env ctx (p :: rest) k s remote =
        (.exc e :: (sendData env ctx rest (k + 1) s1 remote).1,
         (sendData env ctx rest (k + 1) s1 remote).2)) ∧
    (∀ (env : Env) (ctx : Nat → ItemCtx) (products : List ProductR)
       (s : CState) (remote : List (String × String)),
      (sendDataRun env ctx products s remote).refreshCancelled = true) ∧
    ((sendDataRun envProd ctxOk
        [prodGood1, prodGood2, prodBadPrice, prodGood4, prodGood5]
        cs0 []).outcomes.map Outcome.isExc =
      [false, false, true, false, false] ∧
     (sendDataRun envProd ctxOk
        [prodGood1, prodGood2, prodBadPrice, prodGood4, prodGood5]
        cs0 []).outcomes.map Outcome.isCreate =
      [true, true, false, true, true]) := by
  refine ⟨sendData_length, ?_, ?_, fun env ctx products s remote => rfl,
    by decide, by decide⟩
  · intro env ctx p rest k s s1 remote h
    exact sendData_cons_currencyMiss env ctx p rest k s remote s1 h
  · intro env ctx p rest k s s1 remote e h
    exact sendData_cons_error env ctx p rest k s remote e s1 h

/-- C8 witness: the currency-miss conjunct at a concrete product whose
currency symbol does not resolve, followed by a product that is still
submitted. -/
theorem c8_fault_isolation_witness :
    sendData envProd ctxOk [prodNoCur, prodGood1] 0 cs0 [] =
      (.currencyMiss :: (sendData envProd ctxOk [prodGood1] 1 cs0 []).1,
       (sendData envProd ctxOk [prodGood1] 1 cs0 []).2) := by
  exact c8_fault_isolation.2.1 envProd ctxOk prodNoCur [prodGood1] 0 cs0 cs0 []
    (by decide)

/-- C9: for a seed whose page chain is finite, the pagination loop fetches
each page of the chain exactly once, in chain order (the chain has no
duplicate pages), collects the products of the visited pages in order, and
stops after the page without a next control; a seed whose first page is a
"category of catalogs" page yields zero products and fetches no further
page. -/
theorem c9_pagination_termination :
    (∀ (fetch : String → Page) (ls : List String),
      ChainSpec fetch ls → ls.Nodup) ∧
    (∀ (fetch : String → Page) (ls : List String), ChainSpec fetch ls →
      ∀ fuel : Nat, ls.length ≤ fuel →
      crawlSeed fetch fuel (ls.headD "") =
        some (ls, (ls.map (fun l => pageProducts (fetch l))).flatten)) ∧
    (∀ (fetch : String → Page) (seed : String) (fuel : Nat),
      (fetch seed).isCatalogPage = true →
      crawlSeed fetch (fuel + 1) seed = some ([seed], [])) := by
  refine ⟨fun fetch ls hc => chainSpec_nodup hc,
    fun fetch ls hc fuel hf => crawlSeed_chain fetch ls hc fuel hf,
    fun fetch seed fuel h => by simp [crawlSeed, h]⟩

/-- C9 witness: the three-page chain p1 → p2 → p3 is visited exactly once
per page with fuel three, and a catalog-of-catalogs first page stops with no
products after one fetch. -/
theorem c9_pagination_termination_witness :
    crawlSeed fetch3 3 "p1" = some (["p1", "p2", "p3"], []) ∧
    crawlSeed fetch3 1 "elsewhere" = some (["elsewhere"], []) := by
  constructor
  · have h := c9_pagination_termination.2.1 fetch3 ["p1", "p2", "p3"]
      ⟨by decide, by decide, by decide⟩ 3 (by decide)
    exact h.trans (by decide)
  · exact c9_pagination_termination.2.2 fetch3 "elsewhere" 0 (by decide)

/-- C10: with an empty seed list, `grab` discovers the menu links,
deduplicates them via set conversion (membership preserved, duplicates gone;
the order of a Python set is unspecified and fixed arbitrarily by the model)
and rebinds them to the `catalog_links` attribute before the seed loop runs;
a non-empty constructor list is crawled verbatim with no deduplication; the
default `catalog_links` argument is one shared mutable list, so instances
constructed without an explicit list alias it, and a discovery run by one
instance mutates the list the other instance still references. -/
theorem c10_seed_dedup_and_shared_default :
    (∀ (url : String) (menu : List MenuItem),
      (grabSeeds heap0 (mkGrowShopGrabber heap0 url none).1 menu).1 =
        pySetList (findPath menu) ∧
      (grabSeeds heap0 (mkGrowShopGrabber heap0 url none).1 menu).1.Nodup ∧
      (∀ x, x ∈ (grabSeeds heap0 (mkGrowShopGrabber heap0 url none).1 menu).1 ↔
        x ∈ findPath menu) ∧
      ((grabSeeds heap0 (mkGrowShopGrabber heap0 url none).1 menu).2.2.read
          (grabSeeds heap0 (mkGrowShopGrabber heap0 url none).1 menu).2.1.linksRef =
        (grabSeeds heap0 (mkGrowShopGrabber heap0 url none).1 menu).1)) ∧
    (∀ (url : String) (links : List String) (menu : List MenuItem) (h : GHeap),
      links ≠ [] →
      (grabSeeds (mkGrowShopGrabber h url (some links)).2
        (mkGrowShopGrabber h url (some links)).1 menu).1 = links) ∧
    (∀ u1 u2 : String,
      (mkGrowShopGrabber heap0 u1 none).1.linksRef =
        (mkGrowShopGrabber heap0 u2 none).1.linksRef) ∧
    (∀ (u1 u2 : String) (menu : List MenuItem),
      (parseCatalogLinks heap0 (mkGrowShopGrabber heap0 u1 none).1 menu).2.read
        (mkGrowShopGrabber heap0 u2 none).1.linksRef = findPath menu) ∧
    (∀ (h : GHeap) (g : GrabberObj) (menu : List MenuItem)
       (fetch : String → Page) (fuel : Nat),
      (grab h g menu fetch fuel).1 =
        crawlSeeds fetch fuel (grabSeeds h g menu).1) := by
  refine ⟨?_, ?_, fun u1 u2 => rfl, ?_, fun h g menu fetch fuel => rfl⟩
  · intro url menu
    refine ⟨?_, ?_, ?_, ?_⟩ <;>
      simp [grabSeeds, mkGrowShopGrabber, parseCatalogLinks, GHeap.read,
        GHeap.write, GHeap.alloc, heap0, defaultLinksRef, pySetList,
        List.getD_cons_succ, List.nodup_dedup, List.mem_dedup]
  · intro url links menu h hne
    have hl := getD_append_self h.cells links
    simp [grabSeeds, mkGrowShopGrabber, GHeap.read, GHeap.alloc, hl,
      List.length_eq_zero, hne]
  · intro u1 u2 menu
    simp [parseCatalogLinks, mkGrowShopGrabber, GHeap.read, GHeap.write,
      GHeap.alloc, heap0, defaultLinksRef]

/-- C10 witness: the dedup conjunct at a concrete menu yielding the links
["a", "b", "a"], and the verbatim conjunct at a duplicated explicit seed
list. -/
theorem c10_seed_dedup_and_shared_default_witness :
    (grabSeeds heap0 (mkGrowShopGrabber heap0 "u" none).1 menuFix).1 =
      pySetList (findPath menuFix) ∧
    (grabSeeds (mkGrowShopGrabber heap0 "u" (some ["x", "x"])).2
      (mkGrowShopGrabber heap0 "u" (some ["x", "x"])).1 menuFix).1 =
      ["x", "x"] := by
  exact ⟨(c10_seed_dedup_and_shared_default.1 "u" menuFix).1,
    c10_seed_dedup_and_shared_default.2.1 "u" ["x", "x"] menuFix heap0
      (by decide)⟩

end GS
